import Mathlib

/-!
Verification development for the calorietrack repository (`src/app/page.tsx`).

The file shallowly embeds the data model and the pure logic of the page
component: the day-rollover engine (startup date check and scheduled
midnight check), the log/history store mutations (add, delete, duplicate),
and the nutrition response parser (a JSON attempt followed by two regex
fallbacks).  JavaScript numbers that only ever hold integer values
(calories, macro grams, millisecond timestamps) are modelled as `Int`;
the one place a fractional user input can flow in (`Number(manualCalories)`)
is modelled as `Rat`.  Failure (`null` / thrown exceptions) is modelled with
`Option` / `Except`.
-/

/-! ## Data model (mirrors the TypeScript interfaces) -/

/-- `MacroData` from page.tsx: carbohydrate, protein and fat grams. -/
structure MacroData where
  carbs : Int
  protein : Int
  fat : Int
  deriving Repr, DecidableEq

/-- `LogEntry` from page.tsx: one logged meal. -/
structure LogEntry where
  id : String
  text : String
  calories : Int
  macros : MacroData
  timestamp : Int
  deriving Repr, DecidableEq

/-- `DailyHistoryEntry` from page.tsx: archived summary of one past day. -/
structure DailyHistoryEntry where
  date : String
  totalCalories : Int
  mealLog : List LogEntry
  dailyGoalAtTheTime : Int
  deriving Repr, DecidableEq

/-- The special text marker of sentinel "day reset" log entries. -/
def sentinelText : String := "Daily Reset for new day"

/-- Test for the sentinel marker, the string comparison
`entry.text !== 'Daily Reset for new day'` negated. -/
def isSentinel (e : LogEntry) : Bool := e.text == sentinelText

/-- The zero `MacroData` record `{ carbs: 0, protein: 0, fat: 0 }`. -/
def zeroMacros : MacroData := { carbs := 0, protein := 0, fat := 0 }

/-- Componentwise addition of macro records, as in the
`setConsumedMacros(prev => ({carbs: prev.carbs + ..., ...}))` updates. -/
def macroAdd (a b : MacroData) : MacroData :=
  { carbs := a.carbs + b.carbs, protein := a.protein + b.protein, fat := a.fat + b.fat }

/-- Componentwise subtraction, as in `handleDeleteLogEntry`. -/
def macroSub (a b : MacroData) : MacroData :=
  { carbs := a.carbs - b.carbs, protein := a.protein - b.protein, fat := a.fat - b.fat }

/-- The state slices held at the application root and persisted to
localStorage: `dailyGoal`, `consumedCalories`, `consumedMacros`, `log`
(`calorieLog` in storage) and `calorieHistory`. -/
structure StoredState where
  dailyGoal : Int
  consumedCalories : Int
  consumedMacros : MacroData
  log : List LogEntry
  calorieHistory : List DailyHistoryEntry
  deriving Repr, DecidableEq

/-! ## Calendar arithmetic

Luxon's `DateTime.fromMillis(ts).toFormat('yyyy-MM-dd')` and
`DateTime.fromFormat(date, 'yyyy-MM-dd').toMillis()` convert between epoch
milliseconds and local calendar dates.  We model the local zone as a fixed
offset `tz` in milliseconds added to UTC (daylight-saving transitions are
outside the model).  The day/date conversion uses the standard proleptic
Gregorian civil-date algorithms. -/

/-- Days since 1970-01-01 to civil `(year, month, day)`
(Gregorian, valid for all integers). -/
def civilFromDays (z0 : Int) : Int × Nat × Nat :=
  let z : Int := z0 + 719468
  let era : Int := z.fdiv 146097
  let doe : Nat := (z - era * 146097).toNat
  let yoe : Nat := (doe - doe / 1460 + doe / 36524 - doe / 146096) / 365
  let doy : Nat := doe - (365 * yoe + yoe / 4 - yoe / 100)
  let mp : Nat := (5 * doy + 2) / 153
  let d : Nat := doy - (153 * mp + 2) / 5 + 1
  let m : Nat := if mp < 10 then mp + 3 else mp - 9
  ((yoe : Int) + era * 400 + (if m ≤ 2 then 1 else 0), m, d)

/-- Civil `(year, month, day)` to days since 1970-01-01. -/
def daysFromCivil (y : Int) (m d : Nat) : Int :=
  let y2 : Int := if m ≤ 2 then y - 1 else y
  let era : Int := y2.fdiv 400
  let yoe : Nat := (y2 - era * 400).toNat
  let mp : Nat := if 2 < m then m - 3 else m + 9
  let doy : Nat := (153 * mp + 2) / 5 + d - 1
  let doe : Nat := yoe * 365 + yoe / 4 - yoe / 100 + doy
  era * 146097 + (doe : Int) - 719468

/-- Left-pad a numeral with zeros to the given width. -/
def padZeros (width : Nat) (s : String) : String :=
  if s.length < width then String.mk (List.replicate (width - s.length) '0') ++ s else s

/-- Luxon `toFormat('yyyy-MM-dd')` of a civil date. -/
def formatCivil (y : Int) (m d : Nat) : String :=
  (if y < 0 then "-" else "") ++ padZeros 4 (toString y.natAbs) ++ "-" ++
    padZeros 2 (toString m) ++ "-" ++ padZeros 2 (toString d)

/-- `getFormattedDate(DateTime.fromMillis(ms))`: the local calendar date
(format `yyyy-MM-dd`) of an epoch-millisecond instant, for a zone at fixed
offset `tz` milliseconds. -/
def formatDateOfMillis (tz ms : Int) : String :=
  let days := (ms + tz).fdiv 86400000
  let c := civilFromDays days
  formatCivil c.1 c.2.1 c.2.2

/-- Days in a month of the Gregorian calendar. -/
def daysInMonth (y : Int) (m : Nat) : Nat :=
  if m = 2 then
    if y % 4 = 0 ∧ (y % 100 ≠ 0 ∨ y % 400 = 0) then 29 else 28
  else if m = 4 ∨ m = 6 ∨ m = 9 ∨ m = 11 then 30
  else 31

/-- Split a character list on `-` separators. -/
def splitDash : List Char → List (List Char) → List Char → List (List Char)
  | [], acc, cur => (cur.reverse :: acc).reverse
  | c :: cs, acc, cur =>
    if c = '-' then splitDash cs (cur.reverse :: acc) []
    else splitDash cs acc (c :: cur)

/-- Numeric value of a digit run. -/
def digitsToNat (ds : List Char) : Nat :=
  ds.foldl (fun acc c => 10 * acc + (c.toNat - 48)) 0

/-- A non-empty all-digit run, or nothing. -/
def digitsToNatStrict (ds : List Char) : Option Nat :=
  if ds ≠ [] ∧ ds.all (·.isDigit) then some (digitsToNat ds) else none

/-- Luxon `DateTime.fromFormat(date, 'yyyy-MM-dd').toMillis()` in a zone at
fixed offset `tz`: `none` models an invalid (`NaN`) parse. -/
def parseDateToMillis (tz : Int) (s : String) : Option Int :=
  match (splitDash s.data [] []).map digitsToNatStrict with
  | [some y, some m, some d] =>
    if (splitDash s.data [] []).map List.length = [4, 2, 2] ∧
        1 ≤ m ∧ m ≤ 12 ∧ 1 ≤ d ∧ d ≤ daysInMonth (y : Int) m then
      some (daysFromCivil (y : Int) m d * 86400000 - tz)
    else none
  | _ => none

/-! ## Stable sorting

`calorieHistory` is sorted with
`.sort((a, b) => fromFormat(b.date).toMillis() - fromFormat(a.date).toMillis())`.
`Array.prototype.sort` is a stable sort; a stable sort by a total preorder is
a unique function of the comparator, so we model it by a stable insertion
sort.  An `NaN` comparator value (invalid date) acts like `0` (keep order). -/

/-- Insert `a` after every element `b` with `le b a` (stable insertion). -/
def insertLe (le : α → α → Bool) (a : α) : List α → List α
  | [] => [a]
  | b :: bs => if le b a then b :: insertLe le a bs else a :: b :: bs

/-- Stable sort: fold the list in order, inserting each element after its
equals. -/
def stableSortBy (le : α → α → Bool) (l : List α) : List α :=
  l.foldl (fun acc a => insertLe le a acc) []

/-- The history comparator: `a` may precede `b` iff the comparator
`keyB - keyA` is not positive, i.e. descending by parsed date; unparseable
dates compare as equal. -/
def historyLe (tz : Int) (a b : DailyHistoryEntry) : Bool :=
  match parseDateToMillis tz a.date, parseDateToMillis tz b.date with
  | some x, some y => decide (y ≤ x)
  | _, _ => true

/-- The shared archive expression of both rollover paths:
`[newHistoryEntry, ...prevHistory.filter(e => e.date !== d)].sort(desc)`
with `d = newHistoryEntry.date`. -/
def dedupInsertSorted (tz : Int) (e : DailyHistoryEntry)
    (h : List DailyHistoryEntry) : List DailyHistoryEntry :=
  stableSortBy (historyLe tz) (e :: h.filter (fun x => x.date != e.date))

/-- Number of history entries carrying a given date. -/
def countDate (d : String) (h : List DailyHistoryEntry) : Nat :=
  h.countP (fun e => e.date == d)

/-- At most one history entry per calendar date (the invariant §4.2 of the
spec assigns to the rollover engine). -/
def dedupedByDate (h : List DailyHistoryEntry) : Prop :=
  ∀ d, countDate d h ≤ 1

/-! ## Day rollover engine -/

/-- The sentinel entry both reset paths install
(`id: DateTime.now().toMillis().toString(), text: 'Daily Reset for new day', ...`). -/
def resetEntry (now : Int) : LogEntry :=
  { id := toString now, text := sentinelText, calories := 0,
    macros := zeroMacros, timestamp := now }

/-- The startup date check of the load `useEffect` (page.tsx lines 282-335):
find the first non-sentinel entry of the stored log; if its local calendar
date differs from today's, archive the stored log/total/goal under that old
date (deduplicated by date and re-sorted descending) and reset today's
state.  `now` is `DateTime.now().toMillis()`. -/
def startupDateCheck (tz now : Int) (st : StoredState) : StoredState :=
  match st.log.find? (fun e => !isSentinel e) with
  | none => st
  | some lastEntry =>
    let lastEntryDate := formatDateOfMillis tz lastEntry.timestamp
    if lastEntryDate = formatDateOfMillis tz now then st
    else
      { dailyGoal := st.dailyGoal
        consumedCalories := 0
        consumedMacros := zeroMacros
        log := [resetEntry now]
        calorieHistory := dedupInsertSorted tz
          { date := lastEntryDate
            totalCalories := st.consumedCalories
            mealLog := st.log.filter (fun e => !isSentinel e)
            dailyGoalAtTheTime := st.dailyGoal } st.calorieHistory }

/-- The scheduled midnight callback (page.tsx lines 368-408): if anything
was consumed or logged, archive the in-memory log verbatim under today's
date (`now` is the instant captured when the timer was armed, `resetNow`
the instant the reset entry is created); then reset today's state. -/
def midnightRollover (tz now resetNow : Int) (st : StoredState) : StoredState :=
  let todayStr := formatDateOfMillis tz now
  let newHistory :=
    if st.consumedCalories > 0 ∨ st.log.length > 0 then
      dedupInsertSorted tz
        { date := todayStr
          totalCalories := st.consumedCalories
          mealLog := st.log
          dailyGoalAtTheTime := st.dailyGoal } st.calorieHistory
    else st.calorieHistory
  { dailyGoal := st.dailyGoal
    consumedCalories := 0
    consumedMacros := zeroMacros
    log := [resetEntry resetNow]
    calorieHistory := newHistory }

/-! ## A model of `JSON.parse`

`parseNutritionFromResponse` first tries `JSON.parse(responseText.trim())`.
We embed a JSON reader over the character list of the input, with fuel
standing in for the JavaScript call stack (exhausted fuel, like a stack
overflow on pathologically nested input, is a thrown error, i.e. `none`).
Numbers are returned as exact rationals. -/

/-- JSON values.  Objects keep their members in source order, duplicates
included; lookups take the last occurrence, as assignment-built JavaScript
objects do. -/
inductive Json where
  | null
  | bool (b : Bool)
  | num (q : Rat)
  | str (s : String)
  | arr (elems : List Json)
  | obj (members : List (String × Json))

/-- Is this the JSON value `null`?  (Reading a property off `null` throws
in JavaScript; every other `JSON.parse` result supports property reads.) -/
def jsonIsNull : Json → Bool
  | Json.null => true
  | _ => false

/-- JSON insignificant whitespace (space, tab, line feed, carriage return). -/
def isJsonWs (c : Char) : Bool :=
  c = ' ' ∨ c = '\t' ∨ c = '\n' ∨ c = '\r'

/-- Drop leading JSON whitespace. -/
def skipWs : List Char → List Char
  | [] => []
  | c :: cs => if isJsonWs c then skipWs cs else c :: cs

/-- Value of a hexadecimal digit. -/
def hexVal (c : Char) : Option Nat :=
  if c.isDigit then some (c.toNat - 48)
  else if 'a' ≤ c ∧ c ≤ 'f' then some (c.toNat - 87)
  else if 'A' ≤ c ∧ c ≤ 'F' then some (c.toNat - 55)
  else none

/-- Body of a JSON string after the opening quote; handles the escape
sequences of the JSON grammar and rejects raw control characters.
(`\uXXXX` maps through `Char.ofNat`; lone-surrogate code units, which
Unicode scalar values cannot carry, are outside the model.) -/
def parseJsonStringAux : Nat → List Char → List Char → Option (String × List Char)
  | 0, _, _ => none
  | Nat.succ fuel, acc, cs =>
    match cs with
    | [] => none
    | '"' :: rest => some (String.mk acc.reverse, rest)
    | '\\' :: esc :: rest =>
      match esc with
      | '"' => parseJsonStringAux fuel ('"' :: acc) rest
      | '\\' => parseJsonStringAux fuel ('\\' :: acc) rest
      | '/' => parseJsonStringAux fuel ('/' :: acc) rest
      | 'b' => parseJsonStringAux fuel ('\x08' :: acc) rest
      | 'f' => parseJsonStringAux fuel ('\x0c' :: acc) rest
      | 'n' => parseJsonStringAux fuel ('\n' :: acc) rest
      | 'r' => parseJsonStringAux fuel ('\r' :: acc) rest
      | 't' => parseJsonStringAux fuel ('\t' :: acc) rest
      | 'u' =>
        match rest with
        | h1 :: h2 :: h3 :: h4 :: rest2 =>
          match hexVal h1, hexVal h2, hexVal h3, hexVal h4 with
          | some a, some b, some c, some d =>
            parseJsonStringAux fuel (Char.ofNat (((a * 16 + b) * 16 + c) * 16 + d) :: acc) rest2
          | _, _, _, _ => none
        | _ => none
      | _ => none
    | c :: rest =>
      if c.toNat < 32 then none else parseJsonStringAux fuel (c :: acc) rest

/-- Digit run and remainder. -/
def spanDigits (cs : List Char) : List Char × List Char :=
  cs.span (·.isDigit)

/-- Optional exponent part of a JSON number, applied to the signed
significand `base`. -/
def parseJsonExpPart (neg : Bool) (base : Rat) (cs : List Char) :
    Option (Rat × List Char) :=
  let signedVal : Rat := if neg then -base else base
  match cs with
  | e :: r1 =>
    if e = 'e' ∨ e = 'E' then
      let esigned : Bool × List Char :=
        match r1 with
        | '+' :: r2 => (false, r2)
        | '-' :: r2 => (true, r2)
        | _ => (false, r1)
      let ed := spanDigits esigned.2
      if ed.1.isEmpty then none
      else
        let mag : Rat := (10 : Rat) ^ digitsToNat ed.1
        some ((if esigned.1 then signedVal / mag else signedVal * mag), ed.2)
    else some (signedVal, cs)
  | [] => some (signedVal, [])

/-- A JSON number (`-? int frac? exp?`) as an exact rational.  A leading
zero followed by further digits is read as the single number `0`; the
stray digits then make the enclosing parse fail, which coincides with
`JSON.parse` rejecting the input. -/
def parseJsonNumber (cs : List Char) : Option (Rat × List Char) :=
  let signed : Bool × List Char :=
    match cs with
    | '-' :: r => (true, r)
    | _ => (false, cs)
  let neg := signed.1
  match signed.2 with
  | [] => none
  | c :: cs1 =>
    if ¬ c.isDigit then none
    else
      let ip : List Char × List Char :=
        if c = '0' then ([c], cs1) else spanDigits (c :: cs1)
      let intVal : Rat := (digitsToNat ip.1 : Int)
      match ip.2 with
      | '.' :: r =>
        let fd := spanDigits r
        if fd.1.isEmpty then none
        else
          parseJsonExpPart neg
            (intVal + ((digitsToNat fd.1 : Int) : Rat) / ((10 : Rat) ^ fd.1.length)) fd.2
      | rest => parseJsonExpPart neg intVal rest

/-- The opening and closing braces and brackets as characters. -/
def lBraceChar : Char := Char.ofNat 123

/-- Closing brace character. -/
def rBraceChar : Char := Char.ofNat 125

mutual

/-- A JSON value: whitespace, then a literal, string, number, array or
object. -/
def parseJsonValue : Nat → List Char → Option (Json × List Char)
  | 0, _ => none
  | Nat.succ fuel, cs =>
    match skipWs cs with
    | 'n' :: 'u' :: 'l' :: 'l' :: rest => some (Json.null, rest)
    | 't' :: 'r' :: 'u' :: 'e' :: rest => some (Json.bool true, rest)
    | 'f' :: 'a' :: 'l' :: 's' :: 'e' :: rest => some (Json.bool false, rest)
    | '"' :: rest =>
      (parseJsonStringAux (rest.length + 1) [] rest).map (fun p => (Json.str p.1, p.2))
    | '[' :: rest =>
      match skipWs rest with
      | ']' :: r2 => some (Json.arr [], r2)
      | other => parseJsonArrayLoop fuel [] other
    | c :: rest =>
      if c = lBraceChar then
        match skipWs rest with
        | r2 =>
          if r2 ≠ [] ∧ r2.head? = some rBraceChar then some (Json.obj [], r2.tail)
          else parseJsonObjLoop fuel [] r2
      else (parseJsonNumber (c :: rest)).map (fun p => (Json.num p.1, p.2))
    | [] => none

/-- Array elements after the opening bracket (at least one element). -/
def parseJsonArrayLoop : Nat → List Json → List Char → Option (Json × List Char)
  | 0, _, _ => none
  | Nat.succ fuel, acc, cs =>
    match parseJsonValue fuel cs with
    | none => none
    | some (v, rest) =>
      match skipWs rest with
      | ',' :: r2 => parseJsonArrayLoop fuel (v :: acc) r2
      | ']' :: r2 => some (Json.arr (v :: acc).reverse, r2)
      | _ => none

/-- Object members after the opening brace (at least one member). -/
def parseJsonObjLoop : Nat → List (String × Json) → List Char →
    Option (Json × List Char)
  | 0, _, _ => none
  | Nat.succ fuel, acc, cs =>
    match skipWs cs with
    | '"' :: rest =>
      match parseJsonStringAux (rest.length + 1) [] rest with
      | none => none
      | some (key, r1) =>
        match skipWs r1 with
        | ':' :: r2 =>
          match parseJsonValue fuel r2 with
          | none => none
          | some (v, r3) =>
            match skipWs r3 with
            | ',' :: r4 => parseJsonObjLoop fuel ((key, v) :: acc) r4
            | c :: r4 =>
              if c = rBraceChar then some (Json.obj ((key, v) :: acc).reverse, r4)
              else none
            | [] => none
        | _ => none
    | _ => none

end

/-- JavaScript string `trim()` (modelled on the ASCII whitespace it, and
the regex class `\s`, share, plus no-break space). -/
def jsWsChar (c : Char) : Bool :=
  c = ' ' ∨ c = '\t' ∨ c = '\n' ∨ c = '\r' ∨ c = '\x0b' ∨ c = '\x0c' ∨
    c = Char.ofNat 160

/-- Drop `jsWsChar` characters from both ends. -/
def jsTrimChars (cs : List Char) : List Char :=
  ((cs.dropWhile jsWsChar).reverse.dropWhile jsWsChar).reverse

/-- `responseText.trim()`. -/
def jsTrim (s : String) : String := String.mk (jsTrimChars s.data)

/-- `JSON.parse`: one value, surrounding whitespace allowed, whole input
consumed; `none` models the thrown `SyntaxError`. -/
def jsParseJson (s : String) : Option Json :=
  match parseJsonValue (2 * s.data.length + 2) s.data with
  | some (v, rest) => if skipWs rest = [] then some v else none
  | none => none

/-! ## JavaScript numeric coercions (`parseInt`, `String(x)`, `|| 0`) -/

/-- Truncation toward zero, `parseInt(String(n))` for a double `n` whose
decimal display has no exponent (|n| below 1e21 and not a sub-1e-6
fraction), which covers every value the nutrition prompt can produce. -/
def ratTrunc (q : Rat) : Int := q.num.tdiv (q.den : Int)

/-- Value of a hex digit run. -/
def hexToNat (ds : List Char) : Nat :=
  ds.foldl (fun acc c => 16 * acc + ((hexVal c).getD 0)) 0

/-- JavaScript `parseInt(s)` with no radix argument: skip whitespace, read
an optional sign, then either a `0x`/`0X` hexadecimal prefix or a decimal
digit prefix; `none` models `NaN`. -/
def jsParseInt (s : String) : Option Int :=
  let cs := s.data.dropWhile jsWsChar
  let signed : Int × List Char :=
    match cs with
    | '-' :: r => (-1, r)
    | '+' :: r => (1, r)
    | _ => (1, cs)
  match signed.2 with
  | '0' :: x :: r =>
    if x = 'x' ∨ x = 'X' then
      let hd := r.takeWhile (fun c => (hexVal c).isSome)
      if hd.isEmpty then none else some (signed.1 * (hexToNat hd : Int))
    else
      let ds := signed.2.takeWhile (·.isDigit)
      some (signed.1 * (digitsToNat ds : Int))
  | _ =>
    let ds := signed.2.takeWhile (·.isDigit)
    if ds.isEmpty then none else some (signed.1 * (digitsToNat ds : Int))

/-- Fraction digits of a rational by long division (`r / den`), up to a
bound; stops when the remainder vanishes. -/
def fracDigitsAux : Nat → Nat → Nat → List Char
  | 0, _, _ => []
  | Nat.succ k, r, den =>
    if r = 0 then [] else
      Char.ofNat (48 + r * 10 / den) :: fracDigitsAux k (r * 10 % den) den

/-- `String(n)` for a JavaScript number in the plain decimal display range
(no exponent notation). -/
def jsNumToString (q : Rat) : String :=
  let sign := if q < 0 then "-" else ""
  let ipart := toString (ratTrunc q).natAbs
  let rnum := q.num.natAbs % q.den
  if rnum = 0 then sign ++ ipart
  else sign ++ ipart ++ "." ++ String.mk (fracDigitsAux 20 rnum q.den)

mutual

/-- Structural size of a JSON value (an executable fuel bound for the
recursions below). -/
def jsonSize : Json → Nat
  | Json.null => 1
  | Json.bool _ => 1
  | Json.num _ => 1
  | Json.str _ => 1
  | Json.arr elems => jsonListSize elems + 1
  | Json.obj members => jsonMembersSize members + 1

/-- Structural size of a list of JSON values. -/
def jsonListSize : List Json → Nat
  | [] => 0
  | j :: js => jsonSize j + jsonListSize js + 1

/-- Structural size of a member list. -/
def jsonMembersSize : List (String × Json) → Nat
  | [] => 0
  | (_, v) :: kvs => jsonSize v + jsonMembersSize kvs + 1

end

mutual

/-- `String(x)` for a `JSON.parse` result: `null`/booleans display as
keywords, arrays join their elements with commas, plain objects display as
`[object Object]`. -/
def jsToStringVal : Nat → Json → String
  | 0, _ => ""
  | Nat.succ fuel, j =>
    match j with
    | Json.null => "null"
    | Json.bool true => "true"
    | Json.bool false => "false"
    | Json.num q => jsNumToString q
    | Json.str s => s
    | Json.arr elems => jsArrayJoin fuel elems
    | Json.obj _ => "[object Object]"

/-- `Array.prototype.join(',')`: `null` elements become empty strings. -/
def jsArrayJoin : Nat → List Json → String
  | 0, _ => ""
  | Nat.succ fuel, elems =>
    match elems with
    | [] => ""
    | [Json.null] => ""
    | [j] => jsToStringVal fuel j
    | Json.null :: rest => "," ++ jsArrayJoin fuel rest
    | j :: rest => jsToStringVal fuel j ++ "," ++ jsArrayJoin fuel rest

end

/-- `parseInt(x) || 0` applied to a field of the parsed JSON value, as in
`parseInt(jsonData.calories) || 0`: numbers truncate toward zero, strings
go through `parseInt`, arrays are stringified first, and everything
non-numeric (including a `NaN` from `parseInt`) collapses to `0`. -/
def jsonToIntCoerce : Json → Int
  | Json.num q => ratTrunc q
  | Json.str s => (jsParseInt s).getD 0
  | Json.arr elems => (jsParseInt (jsArrayJoin (jsonListSize elems + 1) elems)).getD 0
  | _ => 0

/-- Property read `jsonData.key` on a `JSON.parse` result (`none` models
`undefined`; the throwing `null` case is handled by the caller). -/
def jsonGetField (j : Json) (key : String) : Option Json :=
  match j with
  | Json.obj members => (members.reverse.find? (fun kv => kv.1 == key)).map (·.2)
  | _ => none

/-! ## The nutrition response parser -/

/-- The `{ calories, macros }` result of `parseNutritionFromResponse`. -/
structure NutritionResult where
  calories : Int
  macros : MacroData
  deriving Repr, DecidableEq

/-- The `try` block of `parseNutritionFromResponse` (page.tsx lines
419-432): `JSON.parse(responseText.trim())`, then, if all four fields are
present, the coerced result.  `Except.error` models a thrown exception
(a `SyntaxError` from `JSON.parse`, or the `TypeError` from reading a
property off `null`); `Except.ok none` models falling out of the `try`
block without a `return`, which skips the `catch` fallbacks. -/
def tryParseStructured (s : String) : Except Unit (Option NutritionResult) :=
  match jsParseJson (jsTrim s) with
  | none => Except.error ()
  | some j =>
    if jsonIsNull j then Except.error ()
    else
      match jsonGetField j "calories", jsonGetField j "carbs",
          jsonGetField j "protein", jsonGetField j "fat" with
      | some c, some cb, some p, some f =>
        Except.ok (some
          { calories := jsonToIntCoerce c
            macros := { carbs := jsonToIntCoerce cb, protein := jsonToIntCoerce p,
                        fat := jsonToIntCoerce f } })
      | _, _, _, _ => Except.ok none

/-- Case-insensitive literal prefix test (pattern given in lowercase). -/
def beginsWithCI : List Char → List Char → Bool
  | [], _ => true
  | _ :: _, [] => false
  | p :: ps, c :: cs => p = c.toLower ∧ beginsWithCI ps cs

/-- One attempt of `/(\d+)\s*(?:calories|kcal)/i` at a fixed position: a
digit run, optional whitespace, then a unit word.  (The pattern needs no
backtracking: shortening the greedy `\d+` or `\s*` leaves a digit or a
space where the unit word's letter must be.) -/
def matchSpecificAt (cs : List Char) : Option Nat :=
  let p := spanDigits cs
  if p.1.isEmpty then none
  else
    let rest := p.2.dropWhile jsWsChar
    if beginsWithCI "calories".data rest ∨ beginsWithCI "kcal".data rest then
      some (digitsToNat p.1)
    else none

/-- Leftmost match of the unit-word pattern. -/
def findSpecificAux : List Char → Option Nat
  | [] => none
  | c :: cs =>
    match matchSpecificAt (c :: cs) with
    | some n => some n
    | none => findSpecificAux cs

/-- `responseText.match(/(\d+)\s*(?:calories|kcal)/i)`: value of the first
capture group of the first match. -/
def findSpecificMatch (s : String) : Option Nat := findSpecificAux s.data

/-- The regex word-character class `\w` = `[A-Za-z0-9_]`. -/
def isWordChar (c : Char) : Bool := c.isAlpha ∨ c.isDigit ∨ c = '_'

/-- Leftmost match of `/\b(\d+)\b/`, scanning with the word-ness of the
previous character: a maximal digit run that starts at a word boundary and
is not followed by a word character. -/
def findGeneralAux : Bool → List Char → Option Nat
  | _, [] => none
  | prevW, c :: cs =>
    if c.isDigit ∧ ¬ prevW then
      let p := spanDigits (c :: cs)
      match p.2 with
      | [] => some (digitsToNat p.1)
      | r :: _ =>
        if isWordChar r then findGeneralAux (isWordChar c) cs
        else some (digitsToNat p.1)
    else findGeneralAux (isWordChar c) cs

/-- `responseText.match(/\b(\d+)\b/)`: the first stand-alone number. -/
def findGeneralMatch (s : String) : Option Nat := findGeneralAux false s.data

/-- The `catch` block of `parseNutritionFromResponse` (page.tsx lines
433-455): the unit-word pattern first (its value returned unguarded), then
the first stand-alone number guarded by the exclusive range (0, 5000). -/
def fallbackParse (s : String) : Option NutritionResult :=
  match findSpecificMatch s with
  | some n => some { calories := (n : Int), macros := zeroMacros }
  | none =>
    match findGeneralMatch s with
    | some n =>
      if 0 < n ∧ n < 5000 then some { calories := (n : Int), macros := zeroMacros }
      else none
    | none => none

/-- `parseNutritionFromResponse` (page.tsx lines 417-458): the structured
attempt; on a thrown exception, the regex fallbacks; if the structured
attempt returns without a result (valid JSON missing a field), the final
`return null` — the `catch` fallbacks are *not* reached in that case. -/
def parseNutritionFromResponse (s : String) : Option NutritionResult :=
  match tryParseStructured s with
  | Except.ok r => r
  | Except.error _ => fallbackParse s

/-- The whole parser inside the exception monad: the `catch` block itself
returns normally, so the function can only ever return a value. -/
def parseNutritionE (s : String) : Except Unit (Option NutritionResult) :=
  match tryParseStructured s with
  | Except.ok r => Except.ok r
  | Except.error _ => Except.ok (fallbackParse s)

/-! ## Log/History store mutations -/

/-- Clone of an entry with a fresh id and a timestamp of now, as built by
both duplicate handlers. -/
def cloneEntry (e : LogEntry) (newId : String) (now : Int) : LogEntry :=
  { id := newId, text := e.text, calories := e.calories, macros := e.macros,
    timestamp := now }

/-- The AI-estimated branch of `handleMealSubmit` (page.tsx lines 543-571):
parse the response; on success prepend the new entry and increment the
running totals; on a parse failure only an error message is set and the
state is unchanged.  `newId`/`now` stand for the
`DateTime.now().toMillis()` calls, `entryText` for the resolved entry
text. -/
def handleMealSubmitAI (newId entryText : String) (now : Int)
    (responseText : String) (st : StoredState) : StoredState :=
  match parseNutritionFromResponse responseText with
  | none => st
  | some nd =>
    { st with
      log := { id := newId, text := entryText, calories := nd.calories,
               macros := nd.macros, timestamp := now } :: st.log
      consumedCalories := st.consumedCalories + nd.calories
      consumedMacros := macroAdd st.consumedMacros nd.macros }

/-- `Math.round` on the numeric value of the manual input. -/
def jsRound (q : Rat) : Int := Rat.floor (q + 1 / 2)

/-- The manual-calories branch of `handleMealSubmit` (page.tsx lines
473-502): `Math.max(0, Math.round(Number(manualCalories)))`, a zero-macro
entry prepended, and only `consumedCalories` incremented.  `manualValue`
is the numeric value of the (non-`NaN`, non-blank) input field. -/
def handleMealSubmitManual (newId entryText : String) (now : Int)
    (manualValue : Rat) (st : StoredState) : StoredState :=
  let caloriesNum : Int := max 0 (jsRound manualValue)
  { st with
    log := { id := newId, text := entryText, calories := caloriesNum,
             macros := zeroMacros, timestamp := now } :: st.log
    consumedCalories := st.consumedCalories + caloriesNum }

/-- `handleDeleteLogEntry` (page.tsx lines 636-647): if an entry with the
id exists, decrement the totals by its calories/macros and remove every
entry with that id. -/
def handleDeleteLogEntry (entryId : String) (st : StoredState) : StoredState :=
  match st.log.find? (fun e => e.id == entryId) with
  | none => st
  | some entryToDelete =>
    { st with
      consumedCalories := st.consumedCalories - entryToDelete.calories
      consumedMacros := macroSub st.consumedMacros entryToDelete.macros
      log := st.log.filter (fun e => e.id != entryId) }

/-- `handleDuplicateLogEntry` (page.tsx lines 649-667): if an entry with
the id exists, append a clone and increment the totals. -/
def handleDuplicateLogEntry (entryId newId : String) (now : Int)
    (st : StoredState) : StoredState :=
  match st.log.find? (fun e => e.id == entryId) with
  | none => st
  | some entryToDuplicate =>
    let newEntry := cloneEntry entryToDuplicate newId now
    { st with
      log := st.log ++ [newEntry]
      consumedCalories := st.consumedCalories + newEntry.calories
      consumedMacros := macroAdd st.consumedMacros newEntry.macros }

/-- `handleDuplicateFromHistory` (page.tsx lines 669-684): append a clone
of the given (history) entry to today's log and increment the totals; the
history itself is not touched. -/
def handleDuplicateFromHistory (entry : LogEntry) (newId : String) (now : Int)
    (st : StoredState) : StoredState :=
  let newEntry := cloneEntry entry newId now
  { st with
    log := st.log ++ [newEntry]
    consumedCalories := st.consumedCalories + newEntry.calories
    consumedMacros := macroAdd st.consumedMacros newEntry.macros }

/-! ## Auxiliary predicates and concrete states used by the claims -/

/-- All three macro components nonnegative. -/
def macroNonneg (m : MacroData) : Prop :=
  0 ≤ m.carbs ∧ 0 ≤ m.protein ∧ 0 ≤ m.fat

/-- Modelled from the spec wording of claim C1, *not* from the source: the
non-sentinel log entry with the greatest `timestamp` ("the most recent
non-sentinel log entry (determined by its timestamp)").  The source instead
takes the first non-sentinel entry in array order (`lastLog.find(...)`);
this definition exists to compare the two readings. -/
def specMostRecentEntryByTimestamp (log : List LogEntry) : Option LogEntry :=
  (log.filter (fun e => !isSentinel e)).foldl
    (fun acc e =>
      match acc with
      | none => some e
      | some a => if a.timestamp < e.timestamp then some e else some a) none

/-- Scenario entry: 1000 kcal logged on 2024-01-01 (09:00 UTC). -/
def scnE1 : LogEntry :=
  { id := "e1", text := "toast", calories := 1000,
    macros := { carbs := 10, protein := 5, fat := 3 }, timestamp := 1704099600000 }

/-- Scenario entry: 800 kcal logged on 2024-01-01 (12:00 UTC). -/
def scnE2 : LogEntry :=
  { id := "e2", text := "soup", calories := 800,
    macros := { carbs := 20, protein := 8, fat := 6 }, timestamp := 1704110400000 }

/-- The spec scenario state: entries on 2024-01-01 totalling 1800 under
goal 2000, empty history (entries newest-first, as submissions prepend). -/
def stScn : StoredState :=
  { dailyGoal := 2000, consumedCalories := 1800,
    consumedMacros := { carbs := 30, protein := 13, fat := 9 },
    log := [scnE2, scnE1], calorieHistory := [] }

/-- 2024-01-02T00:00:00Z in epoch milliseconds (the simulated load). -/
def nowScn : Int := 1704153600000

/-- Counterexample entry for C1: logged on 2024-01-01, but stored *first*
(submissions prepend, so the first entry is the one `find` picks). -/
def cxE1 : LogEntry :=
  { id := "c1", text := "old meal", calories := 60, macros := zeroMacros,
    timestamp := 1704067200000 }

/-- Counterexample entry for C1: logged on 2024-01-02 (noon), stored
second (duplicates append), so it is the most recent by timestamp but not
the entry `find` picks. -/
def cxE2 : LogEntry :=
  { id := "c2", text := "duplicated meal", calories := 40, macros := zeroMacros,
    timestamp := 1704196800000 }

/-- Counterexample state for C1: array order and timestamp order disagree
about which non-sentinel entry is "most recent". -/
def stCx : StoredState :=
  { dailyGoal := 2000, consumedCalories := 100, consumedMacros := zeroMacros,
    log := [cxE1, cxE2], calorieHistory := [] }

/-- 2024-01-03T01:00:00Z in epoch milliseconds (load after both dates). -/
def nowCx : Int := 1704243600000

/-- Counterexample state for C6: the in-memory log still carries the
sentinel installed by an earlier reset when midnight fires. -/
def stMid : StoredState :=
  { dailyGoal := 2000, consumedCalories := 500, consumedMacros := zeroMacros,
    log := [resetEntry 1704067200000, scnE1], calorieHistory := [] }

/-- An empty current-day state. -/
def emptyState : StoredState :=
  { dailyGoal := 2000, consumedCalories := 0, consumedMacros := zeroMacros,
    log := [], calorieHistory := [] }

/-- An AI response whose structured JSON carries a negative calorie
field. -/
def negJsonResponse : String :=
  "\x7b\"calories\": -100, \"carbs\": 2, \"protein\": 3, \"fat\": 4\x7d"

/-- A structured response with a non-numeric field. -/
def structuredResponse : String :=
  "\x7b\"calories\": 350, \"carbs\": \"a lot\", \"protein\": 25, \"fat\": 8\x7d"

/-- The JSON value of `structuredResponse`. -/
def structuredJson : Json :=
  Json.obj [("calories", Json.num 350), ("carbs", Json.str "a lot"),
    ("protein", Json.num 25), ("fat", Json.num 8)]

/-! ## Lemmas about the stable sort and the archive expression -/

theorem insertLe_perm (le : α → α → Bool) (a : α) (l : List α) :
    (insertLe le a l).Perm (a :: l) := by
  induction l with
  | nil => simp [insertLe]
  | cons b bs ih =>
    simp only [insertLe]
    split
    · exact (ih.cons b).trans (List.Perm.swap a b bs)
    · exact List.Perm.refl _

theorem foldl_insertLe_perm (le : α → α → Bool) (l : List α) :
    ∀ acc : List α, (l.foldl (fun acc x => insertLe le x acc) acc).Perm (acc ++ l) := by
  induction l with
  | nil => intro acc; simp
  | cons a as ih =>
    intro acc
    simp only [List.foldl_cons]
    refine (ih (insertLe le a acc)).trans ?_
    refine (((insertLe_perm le a acc).append_right as).trans ?_)
    exact List.perm_middle.symm

theorem stableSortBy_perm (le : α → α → Bool) (l : List α) :
    (stableSortBy le l).Perm l := by
  simpa using foldl_insertLe_perm le l []

theorem countP_filter_of_imp (p q : α → Bool) (l : List α)
    (h : ∀ a, p a = true → q a = true) :
    List.countP p (l.filter q) = List.countP p l := by
  induction l with
  | nil => rfl
  | cons a as ih =>
    by_cases hqa : q a = true
    · simp [List.filter_cons, hqa, List.countP_cons, ih]
    · have hpa : ¬ p a = true := fun hp => hqa (h a hp)
      simp [List.filter_cons, hqa, List.countP_cons, hpa, ih]

theorem countDate_dedupInsertSorted (tz : Int) (e : DailyHistoryEntry)
    (h : List DailyHistoryEntry) (d : String) :
    countDate d (dedupInsertSorted tz e h) =
      if e.date = d then 1 else countDate d h := by
  unfold countDate dedupInsertSorted
  rw [(stableSortBy_perm (historyLe tz) _).countP_eq]
  rw [List.countP_cons]
  by_cases hd : e.date = d
  · have hz : List.countP (fun x => x.date == d)
        (h.filter (fun x => x.date != e.date)) = 0 := by
      rw [List.countP_eq_zero]
      intro a ha
      have hmem := List.mem_filter.mp ha
      have : a.date ≠ e.date := by simpa using hmem.2
      simp [hd ▸ this]
    simp [hz, hd]
  · have : List.countP (fun x => x.date == d)
        (h.filter (fun x => x.date != e.date)) =
        List.countP (fun x => x.date == d) h := by
      refine countP_filter_of_imp _ _ _ ?_
      intro a ha
      have had : a.date = d := by simpa using ha
      simp [had, bne_iff_ne]
      exact fun hc => hd (hc ▸ rfl)
    simp [this, hd]

theorem length_filter_bne_date (h : List DailyHistoryEntry) (d : String) :
    (h.filter (fun x => x.date != d)).length + countDate d h = h.length := by
  induction h with
  | nil => rfl
  | cons a as ih =>
    by_cases had : a.date = d
    · simp only [countDate, List.filter_cons, List.countP_cons] at *
      simp [had] at *
      omega
    · simp only [countDate, List.filter_cons, List.countP_cons] at *
      simp [had, bne_iff_ne] at *
      omega

theorem length_dedupInsertSorted (tz : Int) (e : DailyHistoryEntry)
    (h : List DailyHistoryEntry) :
    (dedupInsertSorted tz e h).length =
      (h.filter (fun x => x.date != e.date)).length + 1 := by
  unfold dedupInsertSorted
  rw [(stableSortBy_perm (historyLe tz) _).length_eq]
  simp

theorem mem_dedupInsertSorted (tz : Int) (e : DailyHistoryEntry)
    (h : List DailyHistoryEntry) (x : DailyHistoryEntry) :
    x ∈ dedupInsertSorted tz e h ↔ x = e ∨ (x ∈ h ∧ x.date ≠ e.date) := by
  unfold dedupInsertSorted
  rw [(stableSortBy_perm (historyLe tz) _).mem_iff]
  simp [List.mem_filter, bne_iff_ne]

/-! ## Lemmas about deletion and fresh ids -/

theorem find?_id_eq_none (l : List LogEntry) (i : String)
    (h : ∀ e ∈ l, e.id ≠ i) : l.find? (fun e => e.id == i) = none := by
  rw [List.find?_eq_none]
  intro x hx
  simpa using h x hx

theorem filter_id_eq_self (l : List LogEntry) (i : String)
    (h : ∀ e ∈ l, e.id ≠ i) : l.filter (fun e => e.id != i) = l := by
  rw [List.filter_eq_self]
  intro a ha
  simpa [bne_iff_ne] using h a ha

theorem macroAdd_zero (m : MacroData) : macroAdd m zeroMacros = m := by
  cases m; simp [macroAdd, zeroMacros]

theorem macroSub_add_cancel (m n : MacroData) : macroSub (macroAdd m n) n = m := by
  cases m; cases n; simp [macroAdd, macroSub]

/-- Deleting a freshly prepended entry undoes the add exactly. -/
theorem delete_of_prepend (st0 st : StoredState) (ne : LogEntry)
    (hlog : st0.log = ne :: st.log)
    (hcal : st0.consumedCalories = st.consumedCalories + ne.calories)
    (hmac : st0.consumedMacros = macroAdd st.consumedMacros ne.macros)
    (hgoal : st0.dailyGoal = st.dailyGoal)
    (hhist : st0.calorieHistory = st.calorieHistory)
    (hfresh : ∀ e ∈ st.log, e.id ≠ ne.id) :
    handleDeleteLogEntry ne.id st0 = st := by
  unfold handleDeleteLogEntry
  rw [hlog, List.find?_cons_of_pos _ (by simp)]
  simp only [List.filter_cons]
  have hne : (ne.id != ne.id) = false := by simp
  rw [hne]
  have hfilter := filter_id_eq_self st.log ne.id hfresh
  cases st0
  cases st
  simp_all [macroSub_add_cancel]

/-- Deleting a freshly appended entry undoes the add exactly. -/
theorem delete_of_append (st0 st : StoredState) (ne : LogEntry)
    (hlog : st0.log = st.log ++ [ne])
    (hcal : st0.consumedCalories = st.consumedCalories + ne.calories)
    (hmac : st0.consumedMacros = macroAdd st.consumedMacros ne.macros)
    (hgoal : st0.dailyGoal = st.dailyGoal)
    (hhist : st0.calorieHistory = st.calorieHistory)
    (hfresh : ∀ e ∈ st.log, e.id ≠ ne.id) :
    handleDeleteLogEntry ne.id st0 = st := by
  unfold handleDeleteLogEntry
  rw [hlog, List.find?_append, find?_id_eq_none st.log ne.id hfresh]
  simp only [Option.none_or, List.find?_cons_of_pos _ (by simp : (ne.id == ne.id) = true)]
  rw [List.filter_append, filter_id_eq_self st.log ne.id hfresh]
  simp only [List.filter_cons]
  have hne : (ne.id != ne.id) = false := by simp
  rw [hne]
  cases st0
  cases st
  simp_all [macroSub_add_cancel]

/-! ## Lemmas about the two rollover paths -/

theorem startupDateCheck_of_find_none (tz now : Int) (st : StoredState)
    (hfind : st.log.find? (fun e => !isSentinel e) = none) :
    startupDateCheck tz now st = st := by
  unfold startupDateCheck
  rw [hfind]

theorem startupDateCheck_triggered (tz now : Int) (st : StoredState) (le : LogEntry)
    (hfind : st.log.find? (fun e => !isSentinel e) = some le)
    (hne : formatDateOfMillis tz le.timestamp ≠ formatDateOfMillis tz now) :
    startupDateCheck tz now st =
      { dailyGoal := st.dailyGoal
        consumedCalories := 0
        consumedMacros := zeroMacros
        log := [resetEntry now]
        calorieHistory := dedupInsertSorted tz
          { date := formatDateOfMillis tz le.timestamp
            totalCalories := st.consumedCalories
            mealLog := st.log.filter (fun e => !isSentinel e)
            dailyGoalAtTheTime := st.dailyGoal } st.calorieHistory } := by
  unfold startupDateCheck
  rw [hfind]
  simp [hne]

theorem startupDateCheck_not_triggered (tz now : Int) (st : StoredState) (le : LogEntry)
    (hfind : st.log.find? (fun e => !isSentinel e) = some le)
    (heq : formatDateOfMillis tz le.timestamp = formatDateOfMillis tz now) :
    startupDateCheck tz now st = st := by
  unfold startupDateCheck
  rw [hfind]
  simp [heq]

theorem find?_resetEntry (now : Int) :
    ([resetEntry now].find? (fun e => !isSentinel e) : Option LogEntry) = none := by
  rw [List.find?_cons_of_neg]
  · rfl
  · simp [resetEntry, isSentinel]

theorem midnightRollover_log (tz now rn : Int) (st : StoredState) :
    (midnightRollover tz now rn st).log = [resetEntry rn] := rfl

theorem midnightRollover_triggered (tz now rn : Int) (st : StoredState)
    (h : st.consumedCalories > 0 ∨ st.log.length > 0) :
    midnightRollover tz now rn st =
      { dailyGoal := st.dailyGoal
        consumedCalories := 0
        consumedMacros := zeroMacros
        log := [resetEntry rn]
        calorieHistory := dedupInsertSorted tz
          { date := formatDateOfMillis tz now
            totalCalories := st.consumedCalories
            mealLog := st.log
            dailyGoalAtTheTime := st.dailyGoal } st.calorieHistory } := by
  unfold midnightRollover
  simp [h]

theorem midnightRollover_not_triggered (tz now rn : Int) (st : StoredState)
    (h : ¬ (st.consumedCalories > 0 ∨ st.log.length > 0)) :
    (midnightRollover tz now rn st).calorieHistory = st.calorieHistory := by
  unfold midnightRollover
  simp [h]

theorem handleDeleteLogEntry_noop (st : StoredState) (i : String)
    (h : ∀ e ∈ st.log, e.id ≠ i) : handleDeleteLogEntry i st = st := by
  unfold handleDeleteLogEntry
  rw [find?_id_eq_none st.log i h]

/-! ## Claim C1 -/

/-- Claim C1 counterexample: the claim selects the most recent non-sentinel
entry *by timestamp*, but the code takes the *first* non-sentinel entry in
stored order.  In `stCx` the stored order is oldest-first (a duplicate was
appended after an ordinary prepend), the most recent entry by timestamp is
from 2024-01-02 and today is 2024-01-03, so the claim requires a history
entry dated 2024-01-02 — yet the startup check archives under 2024-01-01
and leaves no 2024-01-02 entry at all. -/
theorem C1_counterexample :
    (specMostRecentEntryByTimestamp stCx.log).map
        (fun e => formatDateOfMillis 0 e.timestamp) = some "2024-01-02" ∧
    formatDateOfMillis 0 nowCx = "2024-01-03" ∧
    countDate "2024-01-02" (startupDateCheck 0 nowCx stCx).calorieHistory = 0 ∧
    countDate "2024-01-01" (startupDateCheck 0 nowCx stCx).calorieHistory = 1 := by
  refine ⟨by decide, by decide, by decide, by decide⟩

/-- Claim C1 (amended): for every stored state whose *first non-sentinel
log entry in stored order* has a calendar date different from today's
local date, the startup check archives the stored log, consumed total and
goal into history under that entry's date (removing any pre-existing entry
for that date and re-sorting descending — the `dedupInsertSorted`
expression), leaves exactly one history entry for that date, and resets
the day: consumed totals zeroed and the log reduced to a single sentinel
entry. -/
theorem startup_rollover_archives (tz now : Int) (st : StoredState) (le : LogEntry)
    (hfind : st.log.find? (fun e => !isSentinel e) = some le)
    (hne : formatDateOfMillis tz le.timestamp ≠ formatDateOfMillis tz now) :
    (startupDateCheck tz now st).calorieHistory =
      dedupInsertSorted tz
        { date := formatDateOfMillis tz le.timestamp
          totalCalories := st.consumedCalories
          mealLog := st.log.filter (fun e => !isSentinel e)
          dailyGoalAtTheTime := st.dailyGoal } st.calorieHistory ∧
    countDate (formatDateOfMillis tz le.timestamp)
        (startupDateCheck tz now st).calorieHistory = 1 ∧
    (startupDateCheck tz now st).consumedCalories = 0 ∧
    (startupDateCheck tz now st).consumedMacros = zeroMacros ∧
    (startupDateCheck tz now st).log = [resetEntry now] ∧
    (startupDateCheck tz now st).dailyGoal = st.dailyGoal := by
  have h := startupDateCheck_triggered tz now st le hfind hne
  rw [h]
  refine ⟨rfl, ?_, rfl, rfl, rfl, rfl⟩
  rw [countDate_dedupInsertSorted]
  simp

/-- Claim C1 witness: the spec scenario — entries on 2024-01-01 totalling
1800 under goal 2000, loaded on 2024-01-02 — yields exactly the history
entry `{date: "2024-01-01", totalCalories: 1800, dailyGoalAtTheTime: 2000}`
and a reset current day. -/
theorem startup_rollover_archives_witness :
    (stScn.log.find? (fun e => !isSentinel e) = some scnE2 ∧
      formatDateOfMillis 0 scnE2.timestamp ≠ formatDateOfMillis 0 nowScn) ∧
    (startupDateCheck 0 nowScn stScn).calorieHistory =
      [{ date := "2024-01-01", totalCalories := 1800, mealLog := [scnE2, scnE1],
         dailyGoalAtTheTime := 2000 }] ∧
    countDate "2024-01-01" (startupDateCheck 0 nowScn stScn).calorieHistory = 1 ∧
    (startupDateCheck 0 nowScn stScn).consumedCalories = 0 ∧
    (startupDateCheck 0 nowScn stScn).consumedMacros = zeroMacros ∧
    (startupDateCheck 0 nowScn stScn).log = [resetEntry nowScn] := by
  refine ⟨⟨by decide, by decide⟩, ?_, ?_, ?_, ?_, ?_⟩
  · have h := (startup_rollover_archives 0 nowScn stScn scnE2 (by decide) (by decide)).1
    rw [h]
    decide
  · have h := (startup_rollover_archives 0 nowScn stScn scnE2 (by decide) (by decide)).2.1
    have hd : formatDateOfMillis 0 scnE2.timestamp = "2024-01-01" := by decide
    rwa [hd] at h
  · exact (startup_rollover_archives 0 nowScn stScn scnE2 (by decide) (by decide)).2.2.1
  · exact (startup_rollover_archives 0 nowScn stScn scnE2 (by decide) (by decide)).2.2.2.1
  · exact (startup_rollover_archives 0 nowScn stScn scnE2 (by decide) (by decide)).2.2.2.2.1

/-! ## Claim C2 -/

/-- Claim C2: rollover idempotence.  (a) After a triggered startup check
the transitioned date has exactly one history entry, and running the
startup check again (at any later instant) is a no-op, since the log now
holds only the sentinel.  (b) Running the scheduled midnight check twice
for the same transitioned date leaves exactly one entry for that date, and
(when the first run archived anything) the second run does not change the
number of history entries — it only replaces the entry for that date.
(c) Both paths preserve the at-most-one-entry-per-date invariant. -/
theorem rollover_idempotent (tz now r1 r2 : Int) (st : StoredState) :
    (∀ le, st.log.find? (fun e => !isSentinel e) = some le →
      formatDateOfMillis tz le.timestamp ≠ formatDateOfMillis tz now →
      countDate (formatDateOfMillis tz le.timestamp)
          (startupDateCheck tz now st).calorieHistory = 1 ∧
      ∀ now2, startupDateCheck tz now2 (startupDateCheck tz now st) =
          startupDateCheck tz now st) ∧
    (countDate (formatDateOfMillis tz now)
        (midnightRollover tz now r2 (midnightRollover tz now r1 st)).calorieHistory = 1 ∧
      (st.consumedCalories > 0 ∨ st.log.length > 0 →
        (midnightRollover tz now r2 (midnightRollover tz now r1 st)).calorieHistory.length =
          (midnightRollover tz now r1 st).calorieHistory.length)) ∧
    (dedupedByDate st.calorieHistory →
      dedupedByDate (startupDateCheck tz now st).calorieHistory ∧
      dedupedByDate (midnightRollover tz now r1 st).calorieHistory) := by
  refine ⟨?_, ⟨?_, ?_⟩, ?_⟩
  · intro le hfind hne
    have h := startupDateCheck_triggered tz now st le hfind hne
    constructor
    · rw [h]
      dsimp only
      rw [countDate_dedupInsertSorted]
      simp
    · intro now2
      apply startupDateCheck_of_find_none
      rw [h]
      exact find?_resetEntry now
  · have h2 : (midnightRollover tz now r1 st).consumedCalories > 0 ∨
        (midnightRollover tz now r1 st).log.length > 0 := by
      right
      rw [midnightRollover_log]
      simp
    rw [midnightRollover_triggered tz now r2 (midnightRollover tz now r1 st) h2]
    dsimp only
    rw [countDate_dedupInsertSorted]
    simp
  · intro htrig
    have h2 : (midnightRollover tz now r1 st).consumedCalories > 0 ∨
        (midnightRollover tz now r1 st).log.length > 0 := by
      right
      rw [midnightRollover_log]
      simp
    have hc1 : countDate (formatDateOfMillis tz now)
        (midnightRollover tz now r1 st).calorieHistory = 1 := by
      rw [midnightRollover_triggered tz now r1 st htrig]
      dsimp only
      rw [countDate_dedupInsertSorted]
      simp
    rw [midnightRollover_triggered tz now r2 (midnightRollover tz now r1 st) h2]
    dsimp only
    rw [length_dedupInsertSorted]
    dsimp only
    have hlen := length_filter_bne_date
      (midnightRollover tz now r1 st).calorieHistory (formatDateOfMillis tz now)
    omega
  · intro hd
    constructor
    · rcases hcase : st.log.find? (fun e => !isSentinel e) with _ | le
      · rw [startupDateCheck_of_find_none tz now st hcase]
        exact hd
      · by_cases heq : formatDateOfMillis tz le.timestamp = formatDateOfMillis tz now
        · rw [startupDateCheck_not_triggered tz now st le hcase heq]
          exact hd
        · rw [startupDateCheck_triggered tz now st le hcase heq]
          intro d
          dsimp only
          rw [countDate_dedupInsertSorted]
          split
          · exact le_refl 1
          · exact hd d
    · by_cases htrig : st.consumedCalories > 0 ∨ st.log.length > 0
      · rw [midnightRollover_triggered tz now r1 st htrig]
        intro d
        dsimp only
        rw [countDate_dedupInsertSorted]
        split
        · exact le_refl 1
        · exact hd d
      · intro d
        rw [midnightRollover_not_triggered tz now r1 st htrig]
        exact hd d

/-- Claim C2 witness: at the spec scenario, the startup check run on
2024-01-02 leaves exactly one entry for 2024-01-01 and a second run is a
no-op; the midnight check run twice for 2024-01-02 leaves exactly one
entry for that date and the same number of entries. -/
theorem rollover_idempotent_witness :
    countDate "2024-01-01" (startupDateCheck 0 nowScn stScn).calorieHistory = 1 ∧
    startupDateCheck 0 (nowScn + 7200000) (startupDateCheck 0 nowScn stScn) =
        startupDateCheck 0 nowScn stScn ∧
    countDate "2024-01-02"
        (midnightRollover 0 nowScn 7 (midnightRollover 0 nowScn 3 stScn)).calorieHistory = 1 ∧
    (midnightRollover 0 nowScn 7 (midnightRollover 0 nowScn 3 stScn)).calorieHistory.length =
        (midnightRollover 0 nowScn 3 stScn).calorieHistory.length ∧
    dedupedByDate (startupDateCheck 0 nowScn stScn).calorieHistory := by
  refine ⟨?_, ?_, ?_, ?_, ?_⟩
  · have h := ((rollover_idempotent 0 nowScn 3 7 stScn).1 scnE2 (by decide) (by decide)).1
    have hd : formatDateOfMillis 0 scnE2.timestamp = "2024-01-01" := by decide
    rwa [hd] at h
  · exact ((rollover_idempotent 0 nowScn 3 7 stScn).1 scnE2 (by decide) (by decide)).2
      (nowScn + 7200000)
  · have h := ((rollover_idempotent 0 nowScn 3 7 stScn).2.1).1
    have hd : formatDateOfMillis 0 nowScn = "2024-01-02" := by decide
    rwa [hd] at h
  · exact ((rollover_idempotent 0 nowScn 3 7 stScn).2.1).2 (by decide)
  · exact ((rollover_idempotent 0 nowScn 3 7 stScn).2.2
      (fun d => by simp [countDate, stScn])).1

/-! ## Claim C3 -/

/-- Claim C3: add-then-delete round trip.  For every starting state and a
fresh id (ids are assigned at creation and never reused), adding an entry
by any of the four add paths — AI-estimated submission, manual submission,
duplicate of a today entry, duplicate from history — and then deleting it
by its id restores the state exactly: `consumedCalories`, every component
of `consumedMacros`, and the log. -/
theorem add_then_delete_roundtrip (st : StoredState) (newId entryText : String)
    (now : Int) (hfresh : ∀ e ∈ st.log, e.id ≠ newId) :
    (∀ responseText, handleDeleteLogEntry newId
        (handleMealSubmitAI newId entryText now responseText st) = st) ∧
    (∀ v : Rat, handleDeleteLogEntry newId
        (handleMealSubmitManual newId entryText now v st) = st) ∧
    (∀ entryId, handleDeleteLogEntry newId
        (handleDuplicateLogEntry entryId newId now st) = st) ∧
    (∀ entry, handleDeleteLogEntry newId
        (handleDuplicateFromHistory entry newId now st) = st) := by
  refine ⟨?_, ?_, ?_, ?_⟩
  · intro responseText
    cases hp : parseNutritionFromResponse responseText with
    | none =>
      have hsub : handleMealSubmitAI newId entryText now responseText st = st := by
        unfold handleMealSubmitAI
        rw [hp]
      rw [hsub]
      exact handleDeleteLogEntry_noop st newId hfresh
    | some nd =>
      have hsub : handleMealSubmitAI newId entryText now responseText st =
          { st with
            log := { id := newId, text := entryText, calories := nd.calories,
                     macros := nd.macros, timestamp := now } :: st.log
            consumedCalories := st.consumedCalories + nd.calories
            consumedMacros := macroAdd st.consumedMacros nd.macros } := by
        unfold handleMealSubmitAI
        rw [hp]
      refine delete_of_prepend _ st
        { id := newId, text := entryText, calories := nd.calories,
          macros := nd.macros, timestamp := now } ?_ ?_ ?_ ?_ ?_ hfresh
      · rw [hsub]
      · rw [hsub]
      · rw [hsub]
      · rw [hsub]
      · rw [hsub]
  · intro v
    refine delete_of_prepend _ st
      { id := newId, text := entryText, calories := max 0 (jsRound v),
        macros := zeroMacros, timestamp := now } rfl rfl ?_ rfl rfl hfresh
    exact (macroAdd_zero st.consumedMacros).symm
  · intro entryId
    cases hfd : st.log.find? (fun e => e.id == entryId) with
    | none =>
      have hsub : handleDuplicateLogEntry entryId newId now st = st := by
        unfold handleDuplicateLogEntry
        rw [hfd]
      rw [hsub]
      exact handleDeleteLogEntry_noop st newId hfresh
    | some e0 =>
      have hsub : handleDuplicateLogEntry entryId newId now st =
          { st with
            log := st.log ++ [cloneEntry e0 newId now]
            consumedCalories := st.consumedCalories + (cloneEntry e0 newId now).calories
            consumedMacros := macroAdd st.consumedMacros (cloneEntry e0 newId now).macros } := by
        unfold handleDuplicateLogEntry
        rw [hfd]
      refine delete_of_append _ st (cloneEntry e0 newId now) ?_ ?_ ?_ ?_ ?_ hfresh
      · rw [hsub]
      · rw [hsub]
      · rw [hsub]
      · rw [hsub]
      · rw [hsub]
  · intro entry
    exact delete_of_append _ st (cloneEntry entry newId now) rfl rfl rfl rfl rfl hfresh

/-- Claim C3 witness: a fresh-id add of "about 300 calories" into the
scenario state followed by a delete restores the state exactly. -/
theorem add_then_delete_roundtrip_witness :
    (∀ e ∈ stScn.log, e.id ≠ "fresh") ∧
    handleDeleteLogEntry "fresh"
        (handleMealSubmitAI "fresh" "toast" nowScn "about 300 calories" stScn) = stScn ∧
    handleDeleteLogEntry "fresh"
        (handleDuplicateFromHistory scnE1 "fresh" nowScn stScn) = stScn := by
  refine ⟨by decide, ?_, ?_⟩
  · exact (add_then_delete_roundtrip stScn "fresh" "toast" nowScn (by decide)).1
      "about 300 calories"
  · exact (add_then_delete_roundtrip stScn "fresh" "toast" nowScn (by decide)).2.2.2 scnE1

/-! ## Claim C8 -/

/-- Claim C8: duplicating a history entry appends exactly one clone of it
(same text, calories and macros; the given fresh id and current timestamp)
to today's log, increases the totals by exactly the entry's calories and
macros, and leaves the calorie history and goal unchanged. -/
theorem duplicate_from_history_effect (st : StoredState) (entry : LogEntry)
    (newId : String) (now : Int) :
    (handleDuplicateFromHistory entry newId now st).log =
        st.log ++ [cloneEntry entry newId now] ∧
    (handleDuplicateFromHistory entry newId now st).log.length = st.log.length + 1 ∧
    (cloneEntry entry newId now).text = entry.text ∧
    (cloneEntry entry newId now).calories = entry.calories ∧
    (cloneEntry entry newId now).macros = entry.macros ∧
    (cloneEntry entry newId now).id = newId ∧
    (cloneEntry entry newId now).timestamp = now ∧
    (handleDuplicateFromHistory entry newId now st).consumedCalories =
        st.consumedCalories + entry.calories ∧
    (handleDuplicateFromHistory entry newId now st).consumedMacros =
        macroAdd st.consumedMacros entry.macros ∧
    (handleDuplicateFromHistory entry newId now st).calorieHistory = st.calorieHistory ∧
    (handleDuplicateFromHistory entry newId now st).dailyGoal = st.dailyGoal := by
  refine ⟨rfl, ?_, rfl, rfl, rfl, rfl, rfl, rfl, rfl, rfl, rfl⟩
  simp [handleDuplicateFromHistory]

/-! ## Claim C10 -/

/-- Claim C10: for an id not present in today's log, both
`handleDeleteLogEntry` and `handleDuplicateLogEntry` are no-ops — the log,
`consumedCalories` and `consumedMacros` (the whole state) are unchanged. -/
theorem unknown_id_noop (st : StoredState) (entryId newId : String) (now : Int)
    (h : ∀ e ∈ st.log, e.id ≠ entryId) :
    handleDeleteLogEntry entryId st = st ∧
    handleDuplicateLogEntry entryId newId now st = st := by
  constructor
  · exact handleDeleteLogEntry_noop st entryId h
  · unfold handleDuplicateLogEntry
    rw [find?_id_eq_none st.log entryId h]

/-- Claim C10 witness: deleting or duplicating the unknown id "zzz" in the
scenario state changes nothing. -/
theorem unknown_id_noop_witness :
    (∀ e ∈ stScn.log, e.id ≠ "zzz") ∧
    handleDeleteLogEntry "zzz" stScn = stScn ∧
    handleDuplicateLogEntry "zzz" "fresh" nowScn stScn = stScn := by
  refine ⟨by decide, ?_, ?_⟩
  · exact (unknown_id_noop stScn "zzz" "fresh" nowScn (by decide)).1
  · exact (unknown_id_noop stScn "zzz" "fresh" nowScn (by decide)).2

/-! ## Claim C4 -/

/-- Claim C4: for every response text that parses as JSON to a value with
all four fields `calories`, `carbs`, `protein`, `fat` present, the parser
returns exactly the four field values coerced to integers by
`parseInt(x) || 0` (so a non-numeric field coerces to `0`). -/
theorem parser_structured_path (s : String) (j c cb p f : Json)
    (hj : jsParseJson (jsTrim s) = some j)
    (hc : jsonGetField j "calories" = some c)
    (hcb : jsonGetField j "carbs" = some cb)
    (hp : jsonGetField j "protein" = some p)
    (hf : jsonGetField j "fat" = some f) :
    parseNutritionFromResponse s = some
      { calories := jsonToIntCoerce c
        macros := { carbs := jsonToIntCoerce cb, protein := jsonToIntCoerce p,
                    fat := jsonToIntCoerce f } } := by
  have hnull : jsonIsNull j = false := by
    cases j
    · simp [jsonGetField] at hc
    all_goals rfl
  have ht : tryParseStructured s = Except.ok (some
      { calories := jsonToIntCoerce c
        macros := { carbs := jsonToIntCoerce cb, protein := jsonToIntCoerce p,
                    fat := jsonToIntCoerce f } }) := by
    unfold tryParseStructured
    rw [hj]
    dsimp only
    rw [if_neg (by simp [hnull]), hc, hcb, hp, hf]
  unfold parseNutritionFromResponse
  rw [ht]

/-- Claim C4 witness: a structured response whose `carbs` field is the
non-numeric string "a lot", which `parseInt(x) || 0` coerces to 0. -/
theorem parser_structured_path_witness :
    (jsParseJson (jsTrim structuredResponse) = some structuredJson ∧
      jsonGetField structuredJson "calories" = some (Json.num 350) ∧
      jsonGetField structuredJson "carbs" = some (Json.str "a lot") ∧
      jsonGetField structuredJson "protein" = some (Json.num 25) ∧
      jsonGetField structuredJson "fat" = some (Json.num 8)) ∧
    parseNutritionFromResponse structuredResponse = some
      { calories := 350, macros := { carbs := 0, protein := 25, fat := 8 } } := by
  refine ⟨⟨by rfl, by rfl, by rfl, by rfl, by rfl⟩, ?_⟩
  have h := parser_structured_path structuredResponse structuredJson
    (Json.num 350) (Json.str "a lot") (Json.num 25) (Json.num 8)
    (by rfl) (by rfl) (by rfl) (by rfl) (by rfl)
  rw [h]
  rfl

/-! ## Claim C5 -/

/-- Claim C5 counterexample: the text `"42"` is not a structured four-field
record, matches no unit-word pattern, and contains the stand-alone number
42 with 0 < 42 < 5000 — the claim then requires the parser to return 42 —
but it is *valid JSON*, so the structured attempt succeeds (fields
missing), the `catch` fallbacks never run, and the parser returns `none`. -/
theorem C5_counterexample :
    jsParseJson (jsTrim "42") = some (Json.num 42) ∧
    jsonGetField (Json.num 42) "calories" = none ∧
    findSpecificMatch "42" = none ∧
    findGeneralMatch "42" = some 42 ∧ 0 < 42 ∧ 42 < 5000 ∧
    parseNutritionFromResponse "42" = none := by
  refine ⟨by rfl, by rfl, by rfl, by rfl, by decide, by decide, by rfl⟩

/-- Claim C5 (amended): the bare-number fallback applies only when the
JSON parse *throws* (the trimmed text is not valid JSON); the unit-word
pattern must not match; and it is the *first* stand-alone number of the
text that is returned, provided it lies in (0, 5000).  (A text that is
valid JSON but lacks the four fields yields no result without any
fallback, and a first stand-alone number out of range yields no result
even if a later one is in range.) -/
theorem parser_bare_number_fallback (s : String) (n : Nat)
    (hjson : jsParseJson (jsTrim s) = none)
    (hspec : findSpecificMatch s = none)
    (hgen : findGeneralMatch s = some n)
    (h1 : 0 < n) (h2 : n < 5000) :
    parseNutritionFromResponse s = some { calories := (n : Int), macros := zeroMacros } := by
  have ht : tryParseStructured s = Except.error () := by
    unfold tryParseStructured
    rw [hjson]
  unfold parseNutritionFromResponse
  rw [ht]
  unfold fallbackParse
  rw [hspec, hgen]
  simp [h1, h2]

/-- Claim C5 witness: "I estimate roughly 450" is not valid JSON, has no
unit word, and its first stand-alone number 450 is in range, so the parser
returns 450 with zero macros. -/
theorem parser_bare_number_fallback_witness :
    (jsParseJson (jsTrim "I estimate roughly 450") = none ∧
      findSpecificMatch "I estimate roughly 450" = none ∧
      findGeneralMatch "I estimate roughly 450" = some 450 ∧
      0 < 450 ∧ 450 < 5000) ∧
    parseNutritionFromResponse "I estimate roughly 450" =
      some { calories := 450, macros := zeroMacros } :=
  ⟨⟨by rfl, by rfl, by rfl, by decide, by decide⟩,
    parser_bare_number_fallback "I estimate roughly 450" 450
      (by rfl) (by rfl) (by rfl) (by decide) (by decide)⟩

/-! ## Claim C9 -/

/-- Claim C9: parser totality — for every input string the parser, run
inside the exception monad (`JSON.parse` and the `null` property read are
the only throwing operations, and both are inside the `try`), returns
normally with exactly the `Option` result of `parseNutritionFromResponse`:
a nutrition value or the no-result signal, never an escaping exception.
(Termination holds by construction: the embedding is a total function.) -/
theorem parser_total_never_throws (s : String) :
    parseNutritionE s = Except.ok (parseNutritionFromResponse s) := by
  unfold parseNutritionE parseNutritionFromResponse
  cases tryParseStructured s
  · rfl
  · rfl

/-! ## Claim C6 -/

/-- Claim C6 counterexample: the scheduled midnight path stores the
in-memory log *verbatim* (`mealLog: log`), so a history entry it creates
can contain the sentinel reset entry — unlike the startup path, which
filters sentinels out.  In `stMid` the log still opens with the sentinel
installed by an earlier reset. -/
theorem C6_counterexample :
    (midnightRollover 0 1704110400000 1704153600000 stMid).calorieHistory.any
        (fun x => x.mealLog.any isSentinel) = true ∧
    (midnightRollover 0 1704110400000 1704153600000 stMid).calorieHistory =
      [{ date := "2024-01-01", totalCalories := 500,
         mealLog := [resetEntry 1704067200000, scnE1], dailyGoalAtTheTime := 2000 }] := by
  refine ⟨by decide, by decide⟩

/-- Claim C6 (amended): every history entry created by the *startup*
rollover has a sentinel-free `mealLog` (the startup path filters by the
sentinel marker), while the *scheduled midnight* rollover copies the
in-memory log verbatim into `mealLog`, sentinels included. -/
theorem history_mealLog_sentinels (tz now rn : Int) (st : StoredState) :
    (∀ x ∈ (startupDateCheck tz now st).calorieHistory,
        x ∈ st.calorieHistory ∨ ∀ e ∈ x.mealLog, isSentinel e = false) ∧
    (st.consumedCalories > 0 ∨ st.log.length > 0 →
      ∃ x ∈ (midnightRollover tz now rn st).calorieHistory,
        x.date = formatDateOfMillis tz now ∧ x.mealLog = st.log) := by
  constructor
  · rcases hcase : st.log.find? (fun e => !isSentinel e) with _ | le
    · rw [startupDateCheck_of_find_none tz now st hcase]
      intro x hx
      exact Or.inl hx
    · by_cases heq : formatDateOfMillis tz le.timestamp = formatDateOfMillis tz now
      · rw [startupDateCheck_not_triggered tz now st le hcase heq]
        intro x hx
        exact Or.inl hx
      · rw [startupDateCheck_triggered tz now st le hcase heq]
        intro x hx
        dsimp only at hx
        rw [mem_dedupInsertSorted] at hx
        rcases hx with rfl | ⟨hmem, _⟩
        · right
          intro e he
          dsimp only at he
          have hf := List.mem_filter.mp he
          simpa using hf.2
        · exact Or.inl hmem
  · intro htrig
    rw [midnightRollover_triggered tz now rn st htrig]
    refine ⟨{ date := formatDateOfMillis tz now, totalCalories := st.consumedCalories,
              mealLog := st.log, dailyGoalAtTheTime := st.dailyGoal }, ?_, rfl, rfl⟩
    dsimp only
    rw [mem_dedupInsertSorted]
    exact Or.inl rfl

/-- Claim C6 witness: at the spec scenario the midnight path archives the
current log verbatim under 2024-01-02. -/
theorem history_mealLog_sentinels_witness :
    (stScn.consumedCalories > 0 ∨ stScn.log.length > 0) ∧
    ∃ x ∈ (midnightRollover 0 nowScn nowScn stScn).calorieHistory,
      x.date = formatDateOfMillis 0 nowScn ∧ x.mealLog = stScn.log :=
  ⟨Or.inl (by decide),
    (history_mealLog_sentinels 0 nowScn nowScn stScn).2 (Or.inl (by decide))⟩

/-! ## Claim C7 -/

/-- Claim C7 counterexample: the structured path passes
`parseInt(jsonData.calories) || 0` through unclamped, so an AI response
whose JSON carries a negative calorie field produces a log entry with
negative calories. -/
theorem C7_counterexample :
    parseNutritionFromResponse negJsonResponse =
      some { calories := -100, macros := { carbs := 2, protein := 3, fat := 4 } } ∧
    (handleMealSubmitAI "id1" "meal" 0 negJsonResponse emptyState).log.any
        (fun e => decide (e.calories < 0)) = true := by
  refine ⟨by rfl, by decide⟩

/-- Claim C7 (amended): entries placed by the manual add (clamped by
`Math.max(0, ...)`), by duplication (which copies an existing entry's
values), and by the resets (the zero sentinel) are nonnegative, and every
result of the regex fallback paths of the parser is nonnegative with zero
macros; only the structured JSON path can introduce negative values. -/
theorem entry_nonnegativity (st : StoredState) (newId entryText : String) (now : Int) :
    (∀ v : Rat, ∀ e ∈ (handleMealSubmitManual newId entryText now v st).log,
        e ∈ st.log ∨ (0 ≤ e.calories ∧ macroNonneg e.macros)) ∧
    (∀ s r, fallbackParse s = some r → 0 ≤ r.calories ∧ r.macros = zeroMacros) ∧
    (∀ entryId, ∀ e ∈ (handleDuplicateLogEntry entryId newId now st).log,
        e ∈ st.log ∨ ∃ e0 ∈ st.log, e.calories = e0.calories ∧ e.macros = e0.macros) ∧
    (resetEntry now).calories = 0 ∧ (resetEntry now).macros = zeroMacros := by
  refine ⟨?_, ?_, ?_, rfl, rfl⟩
  · intro v e he
    have hlog : (handleMealSubmitManual newId entryText now v st).log =
        { id := newId, text := entryText, calories := max 0 (jsRound v),
          macros := zeroMacros, timestamp := now } :: st.log := rfl
    rw [hlog] at he
    rcases List.mem_cons.mp he with rfl | hmem
    · right
      exact ⟨le_max_left 0 _, le_refl 0, le_refl 0, le_refl 0⟩
    · exact Or.inl hmem
  · intro s r hr
    unfold fallbackParse at hr
    cases hs : findSpecificMatch s with
    | some n =>
      rw [hs] at hr
      dsimp only at hr
      cases hr
      exact ⟨Int.natCast_nonneg n, rfl⟩
    | none =>
      rw [hs] at hr
      dsimp only at hr
      cases hg : findGeneralMatch s with
      | none =>
        rw [hg] at hr
        cases hr
      | some n =>
        rw [hg] at hr
        dsimp only at hr
        split at hr
        · cases hr
          exact ⟨Int.natCast_nonneg n, rfl⟩
        · cases hr
  · intro entryId e he
    cases hfd : st.log.find? (fun x => x.id == entryId) with
    | none =>
      have hsub : handleDuplicateLogEntry entryId newId now st = st := by
        unfold handleDuplicateLogEntry
        rw [hfd]
      rw [hsub] at he
      exact Or.inl he
    | some e0 =>
      have hsub : (handleDuplicateLogEntry entryId newId now st).log =
          st.log ++ [cloneEntry e0 newId now] := by
        unfold handleDuplicateLogEntry
        rw [hfd]
      rw [hsub] at he
      rcases List.mem_append.mp he with hmem | hone
      · exact Or.inl hmem
      · right
        have he0 : e0 ∈ st.log := List.mem_of_find?_eq_some hfd
        have : e = cloneEntry e0 newId now := List.mem_singleton.mp hone
        subst this
        exact ⟨e0, he0, rfl, rfl⟩

/-- Claim C7 witness: a manual add of the (negative) input value -5 is
clamped to 0, and the unit-word fallback result 300 is nonnegative with
zero macros. -/
theorem entry_nonnegativity_witness :
    (∀ e ∈ (handleMealSubmitManual "m1" "snack" 0 (-5) emptyState).log,
        e ∈ emptyState.log ∨ (0 ≤ e.calories ∧ macroNonneg e.macros)) ∧
    fallbackParse "about 300 calories" =
        some { calories := ((300 : Nat) : Int), macros := zeroMacros } ∧
    0 ≤ ((300 : Nat) : Int) := by
  refine ⟨?_, by rfl, ?_⟩
  · exact (entry_nonnegativity emptyState "m1" "snack" 0).1 (-5)
  · exact ((entry_nonnegativity emptyState "m1" "snack" 0).2.1 "about 300 calories"
      { calories := ((300 : Nat) : Int), macros := zeroMacros } (by rfl)).1
